import Mathlib

/-!
Verification development for the student-info-system repository
(src/student_services2.py).

The Python program is shallowly embedded:

* A Python value occurring in a student record is a `PyVal`
  (a string, a float modelled as an exact rational, a bool, or None).
* A Python dict is an ordered association list `PyDict`
  (insertion order preserved, keys unique in every dict the program builds;
  assignment `d[k] = v` replaces the first binding of `k` in place or
  appends a new one, exactly like a Python dict).
* Python truthiness, `==`, `float(...)` and `str(...)` are modelled by
  `PyVal.truthy`, `pyEq`, `floatV` and `pyStr`.  `float` on a decimal
  literal string (optional sign, radix point, exponent) is modelled
  exactly; the special forms inf/nan and underscore separators are not
  representable in the rational model and parse to failure.
* Exceptions are modelled by `Except PyErr`; `ValueError` carries its
  message so that the two validation messages of the service are
  distinguishable from a float-conversion `ValueError`.
* `datetime.now().strftime(...)` and `str(uuid.uuid4())[:8]` are modelled
  as explicit `now` / `newId` parameters of the service operations; the
  two `now_iso()` calls inside `Student.__init__` read the same clock
  instant.
* The file system is modelled at the value level: a JSON backing file is
  a `JsonFile` (missing, syntactically malformed, a root that is not a
  list, or a list of record objects), an XML backing file is an `XmlFile`
  holding an element tree.  `json.dump`/`json.load` round-trip the
  primitive values involved exactly, so the JSON text layer is collapsed.
-/

/-- A Python value stored in a student record field. -/
inductive PyVal where
  | str (s : String)
  | num (q : ℚ)
  | bool (b : Bool)
  | none_
deriving DecidableEq, Repr

/-- A Python exception, with enough detail to distinguish the messages
the service raises. -/
inductive PyErr where
  | valueError (msg : String)
  | typeError (msg : String)
  | keyError (k : String)
deriving DecidableEq, Repr

/-- A Python dict with string keys, as an ordered association list. -/
abbrev PyDict := List (String × PyVal)

/-- Lookup, as in `d.get(k)` before defaulting: first binding of `k`. -/
def dictGet? : PyDict → String → Option PyVal
  | [], _ => none
  | (k0, v0) :: rest, k => if k0 = k then some v0 else dictGet? rest k

/-- `d.get(k)`: the bound value, or Python `None` when absent. -/
def dictGet (d : PyDict) (k : String) : PyVal :=
  (dictGet? d k).getD .none_

/-- `d.get(k, default)`. -/
def dictGetD (d : PyDict) (k : String) (v : PyVal) : PyVal :=
  (dictGet? d k).getD v

/-- `d[k]`: the bound value, or a `KeyError`. -/
def dictItem (d : PyDict) (k : String) : Except PyErr PyVal :=
  match dictGet? d k with
  | some v => .ok v
  | none => .error (.keyError k)

/-- `k in d`. -/
def dictHas (d : PyDict) (k : String) : Bool :=
  (dictGet? d k).isSome

/-- `d[k] = v`: replace the first binding of `k` in place, else append. -/
def dictSet : PyDict → String → PyVal → PyDict
  | [], k, v => [(k, v)]
  | (k0, v0) :: rest, k, v =>
      if k0 = k then (k0, v) :: rest else (k0, v0) :: dictSet rest k v

/-- Python truthiness of a `PyVal`. -/
def PyVal.truthy : PyVal → Bool
  | .str s => !(s.isEmpty)
  | .num q => decide (q ≠ 0)
  | .bool b => b
  | .none_ => false

/-- Numeric view used by Python `==` (bools compare as 0/1). -/
def PyVal.asNum? : PyVal → Option ℚ
  | .num q => some q
  | .bool b => some (if b then 1 else 0)
  | _ => none

/-- Python `==` on the values the program handles. -/
def pyEq (a b : PyVal) : Bool :=
  match a, b with
  | .str s, .str t => s = t
  | .none_, .none_ => true
  | a, b =>
      match a.asNum?, b.asNum? with
      | some x, some y => decide (x = y)
      | _, _ => false

/-- Read a maximal run of decimal digits: accumulated value, digit count,
and the rest of the input. -/
def readDigits (acc n : ℕ) : List Char → ℕ × ℕ × List Char
  | [] => (acc, n, [])
  | c :: cs =>
      if c.isDigit then readDigits (acc * 10 + (c.toNat - 48)) (n + 1) cs
      else (acc, n, c :: cs)

/-- Optional exponent part of a float literal, applied to an unsigned
mantissa given as numerator over a power-of-ten denominator. -/
def parseExpPart (mnum mden : ℕ) (cs : List Char) : Option ℚ :=
  match cs with
  | [] => some (mkRat mnum mden)
  | c :: r1 =>
      if c = 'e' ∨ c = 'E' then
        let (eneg, r2) :=
          match r1 with
          | '+' :: r => (false, r)
          | '-' :: r => (true, r)
          | r => (false, r)
        let (ev, ne, r3) := readDigits 0 0 r2
        if ne = 0 ∨ r3 ≠ [] then none
        else if eneg then some (mkRat mnum (mden * 10 ^ ev))
        else some (mkRat (mnum * 10 ^ ev) mden)
      else none

/-- Unsigned decimal literal: digits with an optional radix point and
an optional exponent; at least one mantissa digit is required. -/
def parseUnsigned (cs : List Char) : Option ℚ :=
  let (ip, ni, r1) := readDigits 0 0 cs
  match r1 with
  | '.' :: r2 =>
      let (fp, nf, r3) := readDigits 0 0 r2
      if ni + nf = 0 then none
      else parseExpPart (ip * 10 ^ nf + fp) (10 ^ nf) r3
  | _ => if ni = 0 then none else parseExpPart ip 1 r1

/-- Whitespace as stripped by Python `str.strip` and `float`. -/
def isPySpace (c : Char) : Bool :=
  c.toNat = 32 ∨ (9 ≤ c.toNat ∧ c.toNat ≤ 13)

/-- Strip surrounding whitespace from a character list. -/
def pyStrip (cs : List Char) : List Char :=
  ((cs.dropWhile isPySpace).reverse.dropWhile isPySpace).reverse

/-- Python `float(s)` on a string: strip surrounding whitespace, optional
sign, then a decimal literal.  Returns the exact rational value. -/
def parseFloat (s : String) : Option ℚ :=
  match pyStrip s.toList with
  | '+' :: cs => parseUnsigned cs
  | '-' :: cs => (parseUnsigned cs).map (fun q => -q)
  | cs => parseUnsigned cs

/-- Python `float(v)` on a record value: floats and bools convert, strings
are parsed (`ValueError` on failure), `None` is a `TypeError`. -/
def floatV : PyVal → Except PyErr ℚ
  | .num q => .ok q
  | .bool b => .ok (if b then 1 else 0)
  | .str s =>
      match parseFloat s with
      | some q => .ok q
      | none => .error (.valueError ("could not convert string to float: " ++ s))
  | .none_ => .error (.typeError "float() argument must be a string or a real number")

/-- Decimal digits of the fractional part `rem / den`, emitting at least
one digit and stopping when the remainder vanishes; `fuel` bounds the
length as Python float text is always finite. -/
def fracDigits (fuel : ℕ) (rem den : ℕ) : String :=
  match fuel with
  | 0 => ""
  | fuel + 1 =>
      let rem10 := rem * 10
      let digit := rem10 / den
      let rem2 := rem10 % den
      String.singleton (Nat.digitChar digit) ++
        (if rem2 = 0 then "" else fracDigits fuel rem2 den)

/-- Render a rational the way Python renders the corresponding float:
sign, integer part, a radix point, and fractional digits (at least one,
so an integral value renders as for example 3.0). -/
def ratToDecimal (q : ℚ) : String :=
  let a := q.num.natAbs
  let d := q.den
  (if q.num < 0 then "-" else "") ++
    toString (a / d) ++ "." ++ fracDigits 30 (a % d) d

/-- Python `str(v)` for the values the program writes into XML text. -/
def pyStr : PyVal → String
  | .str s => s
  | .num q => ratToDecimal q
  | .bool b => if b then "True" else "False"
  | .none_ => "None"

/-- Split a character list at every occurrence of a separator, keeping
empty segments, like `str.split` with a one-character separator. -/
def splitOnAt (sep : Char) : List Char → List (List Char)
  | [] => [[]]
  | c :: cs =>
      if c = sep then [] :: splitOnAt sep cs
      else
        match splitOnAt sep cs with
        | p :: ps => (c :: p) :: ps
        | [] => [[c]]

/-- The email check of the source, `is_valid_email`:
`bool(re.match(r"^[^@]+@[^@]+\.[^@]+$", email))`, that is exactly one
at-sign, a nonempty local part, and a dot strictly inside the domain
(the character class excludes only the at-sign, so any character may
stand on either side of the dot). -/
def is_valid_email (email : String) : Bool :=
  match splitOnAt '@' email.toList with
  | [locPart, domPart] =>
      !(locPart.isEmpty) && ((domPart.drop 1).dropLast.contains '.')
  | _ => false

/-- `is_valid_email` applied to an arbitrary record value: `re.match`
raises a `TypeError` on a non-string argument. -/
def is_valid_emailV : PyVal → Except PyErr Bool
  | .str s => .ok (is_valid_email s)
  | _ => .error (.typeError "expected string or bytes-like object")

/-- The `Student` model of the source, after `__init__` has run: the
identifier and timestamps are already resolved strings, `gpa` has been
through `float(...)`, the remaining fields hold whatever was passed. -/
structure Student where
  student_id : String
  name : PyVal
  email : PyVal
  course : PyVal
  year_level : PyVal
  gpa : ℚ
  created_at : String
  updated_at : String
deriving DecidableEq, Repr

/-- `Student.to_dict`, in the field order of the source. -/
def Student.to_dict (s : Student) : PyDict :=
  [("student_id", .str s.student_id),
   ("name", s.name),
   ("email", s.email),
   ("course", s.course),
   ("year_level", s.year_level),
   ("gpa", .num s.gpa),
   ("created_at", .str s.created_at),
   ("updated_at", .str s.updated_at)]

/-- State of the JSON backing file, at the value level: the file can be
absent, hold syntactically malformed text, hold valid JSON whose root is
not a list, or hold a list of record objects (the shape the system writes
and the service consumes). -/
inductive JsonFile where
  | missing
  | malformed
  | notList
  | rows (rs : List PyDict)
deriving DecidableEq, Repr

/-- An XML element as used through `xml.etree.ElementTree`: tag, optional
text, and child elements. -/
inductive XmlElem where
  | mk (tag : String) (text : Option String) (children : List XmlElem)

/-- Tag of an element. -/
def XmlElem.tag : XmlElem → String
  | .mk t _ _ => t

/-- Text of an element. -/
def XmlElem.text : XmlElem → Option String
  | .mk _ t _ => t

/-- Children of an element. -/
def XmlElem.children : XmlElem → List XmlElem
  | .mk _ _ c => c

/-- State of the XML backing file: absent, malformed, or an element tree. -/
inductive XmlFile where
  | missing
  | malformed
  | doc (root : XmlElem)

/-- A storage back end as the service sees it: `Storage.load` and
`Storage.save` over some file-state type. -/
structure StorageModel (σ : Type) where
  load : σ → List PyDict
  save : List PyDict → σ → σ

/-- `Storage.load` for the JSON format: `json.load` wrapped in
`try ... except`, returning the parsed list when the root is a list and
the empty list on a missing file, a decode error, or a non-list root.
Totality of this function is the no-error guarantee of the source. -/
def jsonLoad : JsonFile → List PyDict
  | .missing => []
  | .malformed => []
  | .notList => []
  | .rows rs => rs

/-- `Storage.save` for the JSON format: overwrite the file with the
serialized list (value-level; `json.dump` then `json.load` is the
identity on these values). -/
def jsonSave (students : List PyDict) (_ : JsonFile) : JsonFile :=
  .rows students

/-- The JSON storage back end. -/
def jsonStorage : StorageModel JsonFile :=
  ⟨jsonLoad, jsonSave⟩

/-- One loop iteration of the XML branch of `Storage.load`: a child
element contributes its text (empty string for a missing text), except
that a `gpa` tag is put through `float(...)` with 0.0 substituted on a
`ValueError`. -/
def xmlReadField (d : PyDict) (c : XmlElem) : PyDict :=
  let text := (c.text).getD ""
  if c.tag = "gpa" then dictSet d c.tag (.num ((parseFloat text).getD 0))
  else dictSet d c.tag (.str text)

/-- One record element parsed back into a dict, as in the XML branch of
`Storage.load`. -/
def elemToDict (e : XmlElem) : PyDict :=
  e.children.foldl xmlReadField []

/-- `Storage.load` for the XML format: parse the tree, collect the
`student` children of the root in order, and read each into a dict;
a missing file or a parse error yields the empty list. -/
def xmlLoad : XmlFile → List PyDict
  | .missing => []
  | .malformed => []
  | .doc root => ((root.children.filter (fun e => e.tag = "student")).map elemToDict)

/-- One record serialized for the XML format: a `student` element with
one child per field, the value rendered by `str(...)` as element text. -/
def dictToElem (d : PyDict) : XmlElem :=
  .mk "student" none (d.map (fun kv => .mk kv.1 (some (pyStr kv.2)) []))

/-- `Storage.save` for the XML format: overwrite the file with a
`students` root holding one `student` element per record. -/
def xmlSave (students : List PyDict) (_ : XmlFile) : XmlFile :=
  .doc (.mk "students" none (students.map dictToElem))

/-- The XML storage back end. -/
def xmlStorage : StorageModel XmlFile :=
  ⟨xmlLoad, xmlSave⟩

/-- `StudentService.add_student`.  `newId` stands for the generated
`str(uuid.uuid4())[:8]`, `now` for the `now_iso()` stamp.  The result is
the returned value or the raised exception, paired with the storage
state after the call (unchanged unless `save` ran). -/
def add_student {σ : Type} (M : StorageModel σ) (newId now : String)
    (student_data : PyDict) (st : σ) : Except PyErr PyDict × σ :=
  if (dictGet student_data "name").truthy = false then
    (.error (.valueError "Name is required."), st)
  else if (dictGet student_data "email").truthy = false then
    (.error (.valueError "A valid email is required."), st)
  else
    match dictItem student_data "email" with
    | .error e => (.error e, st)
    | .ok emailV =>
      match is_valid_emailV emailV with
      | .error e => (.error e, st)
      | .ok false => (.error (.valueError "A valid email is required."), st)
      | .ok true =>
        let students := M.load st
        match dictItem student_data "name" with
        | .error e => (.error e, st)
        | .ok nameV =>
          match floatV (dictGetD student_data "gpa" (.num 0)) with
          | .error e => (.error e, st)
          | .ok g =>
            let stud : Student :=
              { student_id := newId
                name := nameV
                email := emailV
                course := dictGetD student_data "course" (.str "")
                year_level := dictGetD student_data "year_level" (.str "")
                gpa := g
                created_at := now
                updated_at := now }
            (.ok stud.to_dict, M.save (students ++ [stud.to_dict]) st)

/-- `StudentService.get_all_students`. -/
def get_all_students {σ : Type} (M : StorageModel σ) (st : σ) : List PyDict :=
  M.load st

/-- The match test of the service scans:
`s.get("student_id") == student_id`. -/
def idMatches (student_id : String) (s : PyDict) : Bool :=
  pyEq (dictGet s "student_id") (.str student_id)

/-- `StudentService.get_student`: linear scan, first match or `None`. -/
def get_student {σ : Type} (M : StorageModel σ) (student_id : String)
    (st : σ) : Option PyDict :=
  (M.load st).find? (idMatches student_id)

/-- One iteration of the update loop body, for one of the five allowed
keys: skip an unsupplied key; an invalid supplied email raises; a
supplied gpa goes through `float(...)` with a caught `ValueError`
replaced by 0.0; every other supplied value is assigned as given. -/
def updateField (update_data : PyDict) (s : PyDict) (key : String) :
    Except PyErr PyDict :=
  if dictHas update_data key then
    match dictItem update_data key with
    | .error e => .error e
    | .ok v =>
      if key = "email" then
        match is_valid_emailV v with
        | .error e => .error e
        | .ok false => .error (.valueError "Invalid email format.")
        | .ok true => .ok (dictSet s key v)
      else if key = "gpa" then
        match floatV v with
        | .ok q => .ok (dictSet s key (.num q))
        | .error (.valueError _) => .ok (dictSet s key (.num 0))
        | .error e => .error e
      else .ok (dictSet s key v)
  else .ok s

/-- The body run on a matched record: the loop over the five allowed
keys, then the `updated_at` refresh. -/
def applyUpdates (now : String) (update_data : PyDict) (s : PyDict) :
    Except PyErr PyDict :=
  match updateField update_data s "name" with
  | .error e => .error e
  | .ok s =>
    match updateField update_data s "email" with
    | .error e => .error e
    | .ok s =>
      match updateField update_data s "course" with
      | .error e => .error e
      | .ok s =>
        match updateField update_data s "year_level" with
        | .error e => .error e
        | .ok s =>
          match updateField update_data s "gpa" with
          | .error e => .error e
          | .ok s => .ok (dictSet s "updated_at" (.str now))

/-- The scan of `update_student`: walk the loaded list, mutate the first
matching record in place and stop.  Returns the updated record and the
mutated list, `none` when no identifier matches. -/
def updateScan (now student_id : String) (update_data : PyDict) :
    List PyDict → Except PyErr (Option (PyDict × List PyDict))
  | [] => .ok none
  | s :: rest =>
      if idMatches student_id s then
        match applyUpdates now update_data s with
        | .error e => .error e
        | .ok r => .ok (some (r, r :: rest))
      else
        match updateScan now student_id update_data rest with
        | .error e => .error e
        | .ok none => .ok none
        | .ok (some (r, rest2)) => .ok (some (r, s :: rest2))

/-- `StudentService.update_student`: load, scan-and-mutate, and save
only when a record was found and the loop body did not raise. -/
def update_student {σ : Type} (M : StorageModel σ) (now student_id : String)
    (update_data : PyDict) (st : σ) : Except PyErr (Option PyDict) × σ :=
  match updateScan now student_id update_data (M.load st) with
  | .error e => (.error e, st)
  | .ok none => (.ok none, st)
  | .ok (some (r, students2)) => (.ok (some r), M.save students2 st)

/-- `StudentService.delete_student`: filter out every matching record;
save and report true only when the length dropped. -/
def delete_student {σ : Type} (M : StorageModel σ) (student_id : String)
    (st : σ) : Bool × σ :=
  let students := M.load st
  let new_students := students.filter (fun s => !(idMatches student_id s))
  if new_students.length = students.length then (false, st)
  else (true, M.save new_students st)

/-- Is the retrieved field value a missing (None) or empty-string name? -/
def nameMissingOrEmpty : PyVal → Bool
  | .none_ => true
  | .str s => s.isEmpty
  | _ => false

/-- Is the retrieved field value a missing email, or one that fails the
shape check (a string rejected by the regular expression, or not a
string at all)? -/
def emailMissingOrBad : PyVal → Bool
  | .str s => !(is_valid_email s)
  | _ => true

/-- Scope guard: the field is a string or absent (None), the only shapes
the claims speak about. -/
def isStrOrAbsent : PyVal → Bool
  | .str _ => true
  | .none_ => true
  | _ => false


/-- The value a field comes back as after an XML save and load: the
str(...) text, re-parsed as a float for the gpa tag. -/
def xmlRoundVal (k : String) (v : PyVal) : PyVal :=
  if k = "gpa" then .num ((parseFloat (pyStr v)).getD 0)
  else .str (pyStr v)

example : is_valid_email "ana@example.com" = true := by decide
example : is_valid_email "ana@examplecom" = false := by decide
example : is_valid_email "anaexample.com" = false := by decide
example : is_valid_email "a@b@c.d" = false := by decide
example : is_valid_email "@b.c" = false := by decide
example : is_valid_email "a@.c" = false := by decide
example : is_valid_email "a@c." = false := by decide
example : parseFloat "3.5" = some (mkRat 7 2) := by decide
example : parseFloat "abc" = none := by decide
example : parseFloat " -2.5e1 " = some (-25) := by decide
example : parseFloat "" = none := by decide
example : pyStr (.num (mkRat 7 2)) = "3.5" := by decide
example : pyStr (.num 3) = "3.0" := by decide

theorem dictGet?_set_self (d : PyDict) (k : String) (v : PyVal) :
    dictGet? (dictSet d k v) k = some v := by
  induction d with
  | nil => simp [dictSet, dictGet?]
  | cons kv rest ih =>
      obtain ⟨k0, v0⟩ := kv
      by_cases h : k0 = k <;> simp [dictSet, dictGet?, h, ih]

theorem dictGet?_set_ne (d : PyDict) (k k2 : String) (v : PyVal)
    (h : k2 ≠ k) : dictGet? (dictSet d k v) k2 = dictGet? d k2 := by
  have hne : k ≠ k2 := fun hh => h hh.symm
  induction d with
  | nil => simp [dictSet, dictGet?, hne]
  | cons kv rest ih =>
      obtain ⟨k0, v0⟩ := kv
      by_cases h0 : k0 = k
      · subst h0
        simp [dictSet, dictGet?, hne]
      · by_cases h2 : k0 = k2 <;> simp [dictSet, dictGet?, h0, h2, ih, h]

theorem dictGet_set_self (d : PyDict) (k : String) (v : PyVal) :
    dictGet (dictSet d k v) k = v := by
  simp [dictGet, dictGet?_set_self]

theorem dictGet_set_ne (d : PyDict) (k k2 : String) (v : PyVal)
    (h : k2 ≠ k) : dictGet (dictSet d k v) k2 = dictGet d k2 := by
  simp [dictGet, dictGet?_set_ne _ _ _ _ h]

theorem dictItem_of_has (d : PyDict) (k : String) (h : dictHas d k = true) :
    dictItem d k = .ok (dictGet d k) := by
  simp only [dictHas, Option.isSome_iff_exists] at h
  obtain ⟨v, hv⟩ := h
  simp [dictItem, dictGet, hv]

theorem updateField_of_not_has (u s : PyDict) (k : String)
    (h : dictHas u k = false) : updateField u s k = .ok s := by
  simp [updateField, h]

theorem updateField_of_has_plain (u s : PyDict) (k : String)
    (h : dictHas u k = true) (he : k ≠ "email") (hg : k ≠ "gpa") :
    updateField u s k = .ok (dictSet s k (dictGet u k)) := by
  simp [updateField, h, dictItem_of_has u k h, he, hg]

theorem updateField_of_has_email_valid (u s : PyDict) (e : String)
    (h : dictGet? u "email" = some (.str e)) (hv : is_valid_email e = true) :
    updateField u s "email" = .ok (dictSet s "email" (.str e)) := by
  have hh : dictHas u "email" = true := by simp [dictHas, h]
  have : dictGet u "email" = .str e := by simp [dictGet, h]
  simp [updateField, hh, dictItem_of_has u "email" hh, this, is_valid_emailV, hv]

theorem updateField_of_has_email_invalid (u s : PyDict) (e : String)
    (h : dictGet? u "email" = some (.str e)) (hv : is_valid_email e = false) :
    updateField u s "email" = .error (.valueError "Invalid email format.") := by
  have hh : dictHas u "email" = true := by simp [dictHas, h]
  have : dictGet u "email" = .str e := by simp [dictGet, h]
  simp [updateField, hh, dictItem_of_has u "email" hh, this, is_valid_emailV, hv]

theorem updateField_of_has_gpa_ok (u s : PyDict) (q : ℚ)
    (h : dictHas u "gpa" = true) (hq : floatV (dictGet u "gpa") = .ok q) :
    updateField u s "gpa" = .ok (dictSet s "gpa" (.num q)) := by
  simp [updateField, h, dictItem_of_has u "gpa" h, hq]

theorem updateField_of_has_gpa_bad (u s : PyDict) (m : String)
    (h : dictHas u "gpa" = true)
    (hq : floatV (dictGet u "gpa") = .error (.valueError m)) :
    updateField u s "gpa" = .ok (dictSet s "gpa" (.num 0)) := by
  simp [updateField, h, dictItem_of_has u "gpa" h, hq]

theorem updateField_ok_shape (u s s2 : PyDict) (k : String)
    (h : updateField u s k = .ok s2) : s2 = s ∨ ∃ v, s2 = dictSet s k v := by
  unfold updateField at h
  split at h
  · cases hi : dictItem u k with
    | error e => rw [hi] at h; cases h
    | ok v =>
      rw [hi] at h
      dsimp only at h
      by_cases he : k = "email"
      · rw [if_pos he] at h
        cases hv : is_valid_emailV v with
        | error e => rw [hv] at h; cases h
        | ok b =>
          rw [hv] at h
          cases b
          · cases h
          · exact Or.inr ⟨v, by injection h with h2; exact h2.symm⟩
      · rw [if_neg he] at h
        by_cases hg : k = "gpa"
        · rw [if_pos hg] at h
          cases hv : floatV v with
          | ok q =>
              rw [hv] at h
              exact Or.inr ⟨.num q, by injection h with h2; exact h2.symm⟩
          | error e =>
            rw [hv] at h
            cases e with
            | valueError m => exact Or.inr ⟨.num 0, by injection h with h2; exact h2.symm⟩
            | typeError m => cases h
            | keyError m => cases h
        · rw [if_neg hg] at h
          exact Or.inr ⟨v, by injection h with h2; exact h2.symm⟩
  · exact Or.inl (by injection h with h2; exact h2.symm)

theorem updateField_ok_get_ne (u s s2 : PyDict) (k k2 : String)
    (h : updateField u s k = .ok s2) (hne : k2 ≠ k) :
    dictGet? s2 k2 = dictGet? s k2 := by
  rcases updateField_ok_shape u s s2 k h with h2 | ⟨v, h2⟩
  · rw [h2]
  · rw [h2, dictGet?_set_ne _ _ _ _ hne]

theorem updateField_email_ok_elim (u s s2 : PyDict)
    (hhas : dictHas u "email" = true)
    (h : updateField u s "email" = .ok s2) :
    ∃ e, dictGet u "email" = .str e ∧ is_valid_email e = true ∧
      s2 = dictSet s "email" (.str e) := by
  unfold updateField at h
  rw [if_pos hhas, dictItem_of_has u "email" hhas] at h
  dsimp only at h
  rw [if_pos rfl] at h
  cases hv : dictGet u "email" with
  | str e =>
      rw [hv] at h
      simp only [is_valid_emailV] at h
      cases hb : is_valid_email e with
      | false => rw [hb] at h; cases h
      | true =>
          rw [hb] at h
          injection h with h2
          exact ⟨e, rfl, hb, h2.symm⟩
  | num q => rw [hv] at h; simp only [is_valid_emailV] at h; cases h
  | bool b => rw [hv] at h; simp only [is_valid_emailV] at h; cases h
  | none_ => rw [hv] at h; simp only [is_valid_emailV] at h; cases h

theorem updateField_gpa_ok_elim (u s s2 : PyDict)
    (hhas : dictHas u "gpa" = true)
    (h : updateField u s "gpa" = .ok s2) :
    (∃ q, floatV (dictGet u "gpa") = .ok q ∧ s2 = dictSet s "gpa" (.num q)) ∨
    (∃ m, floatV (dictGet u "gpa") = .error (.valueError m) ∧
      s2 = dictSet s "gpa" (.num 0)) := by
  unfold updateField at h
  rw [if_pos hhas, dictItem_of_has u "gpa" hhas] at h
  dsimp only at h
  rw [if_neg (by decide : ¬("gpa" = "email")), if_pos rfl] at h
  cases hv : floatV (dictGet u "gpa") with
  | ok q =>
      rw [hv] at h
      exact Or.inl ⟨q, rfl, by injection h with h2; exact h2.symm⟩
  | error e =>
      rw [hv] at h
      cases e with
      | valueError m =>
          exact Or.inr ⟨m, rfl, by injection h with h2; exact h2.symm⟩
      | typeError m => cases h
      | keyError m => cases h

theorem applyUpdates_ok_elim (now : String) (u s r : PyDict)
    (h : applyUpdates now u s = .ok r) :
    ∃ s1 s2 s3 s4 s5,
      updateField u s "name" = .ok s1 ∧
      updateField u s1 "email" = .ok s2 ∧
      updateField u s2 "course" = .ok s3 ∧
      updateField u s3 "year_level" = .ok s4 ∧
      updateField u s4 "gpa" = .ok s5 ∧
      r = dictSet s5 "updated_at" (.str now) := by
  unfold applyUpdates at h
  cases h1 : updateField u s "name" with
  | error e => rw [h1] at h; cases h
  | ok s1 =>
  rw [h1] at h
  dsimp only at h
  cases h2 : updateField u s1 "email" with
  | error e => rw [h2] at h; cases h
  | ok s2 =>
  rw [h2] at h
  dsimp only at h
  cases h3 : updateField u s2 "course" with
  | error e => rw [h3] at h; cases h
  | ok s3 =>
  rw [h3] at h
  dsimp only at h
  cases h4 : updateField u s3 "year_level" with
  | error e => rw [h4] at h; cases h
  | ok s4 =>
  rw [h4] at h
  dsimp only at h
  cases h5 : updateField u s4 "gpa" with
  | error e => rw [h5] at h; cases h
  | ok s5 =>
  rw [h5] at h
  dsimp only at h
  exact ⟨s1, s2, s3, s4, s5, rfl, h2, h3, h4, h5,
    by injection h with h6; exact h6.symm⟩

theorem applyUpdates_frame (now : String) (u s r : PyDict) (k : String)
    (h : applyUpdates now u s = .ok r)
    (hk : k ∈ (["name", "email", "course", "year_level", "gpa"] : List String) →
      dictHas u k = false)
    (hu : k ≠ "updated_at") :
    dictGet? r k = dictGet? s k := by
  obtain ⟨s1, s2, s3, s4, s5, h1, h2, h3, h4, h5, hr⟩ :=
    applyUpdates_ok_elim now u s r h
  have step : ∀ (t t2 : PyDict) (key : String),
      updateField u t key = .ok t2 →
      (k = key → dictHas u key = false) →
      dictGet? t2 k = dictGet? t k := by
    intro t t2 key hstep hcase
    by_cases hkk : k = key
    · subst hkk
      rw [updateField_of_not_has u t k (hcase rfl)] at hstep
      injection hstep with h6
      rw [h6]
    · exact updateField_ok_get_ne u t t2 key k hstep hkk
  have e1 := step s s1 "name" h1 (fun hh => hh ▸ hk (by simp [hh]))
  have e2 := step s1 s2 "email" h2 (fun hh => hh ▸ hk (by simp [hh]))
  have e3 := step s2 s3 "course" h3 (fun hh => hh ▸ hk (by simp [hh]))
  have e4 := step s3 s4 "year_level" h4 (fun hh => hh ▸ hk (by simp [hh]))
  have e5 := step s4 s5 "gpa" h5 (fun hh => hh ▸ hk (by simp [hh]))
  rw [hr, dictGet?_set_ne _ _ _ _ hu, e5, e4, e3, e2, e1]

theorem updateScan_of_no_match (now student_id : String) (u : PyDict)
    (l : List PyDict) (h : ∀ s ∈ l, idMatches student_id s = false) :
    updateScan now student_id u l = .ok none := by
  induction l with
  | nil => rfl
  | cons s rest ih =>
      have hs : idMatches student_id s = false := h s (by simp)
      have hrest := ih (fun t ht => h t (by simp [ht]))
      simp [updateScan, hs, hrest]

theorem updateScan_split_ok (now student_id : String) (u : PyDict)
    (pre post : List PyDict) (s0 r : PyDict)
    (hpre : ∀ s ∈ pre, idMatches student_id s = false)
    (hs0 : idMatches student_id s0 = true)
    (happ : applyUpdates now u s0 = .ok r) :
    updateScan now student_id u (pre ++ s0 :: post) =
      .ok (some (r, pre ++ r :: post)) := by
  induction pre with
  | nil => simp [updateScan, hs0, happ]
  | cons p rest ih =>
      have hp : idMatches student_id p = false := hpre p (by simp)
      have hrest := ih (fun t ht => hpre t (by simp [ht]))
      simp [updateScan, hp, hrest]

theorem updateScan_split_err (now student_id : String) (u : PyDict)
    (pre post : List PyDict) (s0 : PyDict) (e : PyErr)
    (hpre : ∀ s ∈ pre, idMatches student_id s = false)
    (hs0 : idMatches student_id s0 = true)
    (happ : applyUpdates now u s0 = .error e) :
    updateScan now student_id u (pre ++ s0 :: post) = .error e := by
  induction pre with
  | nil => simp [updateScan, hs0, happ]
  | cons p rest ih =>
      have hp : idMatches student_id p = false := hpre p (by simp)
      have hrest := ih (fun t ht => hpre t (by simp [ht]))
      simp [updateScan, hp, hrest]

theorem find?_append_singleton {α : Type} (p : α → Bool) (l : List α) (r : α)
    (hl : ∀ s ∈ l, p s = false) (hr : p r = true) :
    (l ++ [r]).find? p = some r := by
  induction l with
  | nil => simp [List.find?, hr]
  | cons a rest ih =>
      have ha : p a = false := hl a (by simp)
      have := ih (fun t ht => hl t (by simp [ht]))
      simp [List.find?, ha, this]

theorem add_student_ok_elim {σ : Type} (M : StorageModel σ)
    (newId now : String) (d : PyDict) (st : σ) (r : PyDict)
    (h : (add_student M newId now d st).1 = .ok r) :
    ∃ nameV emailV g,
      dictGet? d "name" = some nameV ∧
      dictGet? d "email" = some emailV ∧
      floatV (dictGetD d "gpa" (.num 0)) = .ok g ∧
      r = Student.to_dict
        { student_id := newId, name := nameV, email := emailV,
          course := dictGetD d "course" (.str ""),
          year_level := dictGetD d "year_level" (.str ""),
          gpa := g, created_at := now, updated_at := now } ∧
      (add_student M newId now d st).2 = M.save (M.load st ++ [r]) st := by
  unfold add_student at h ⊢
  by_cases hn : (dictGet d "name").truthy = false
  · rw [if_pos hn] at h; cases h
  · rw [if_neg hn] at h ⊢
    by_cases he : (dictGet d "email").truthy = false
    · rw [if_pos he] at h; cases h
    · rw [if_neg he] at h ⊢
      cases hge : dictGet? d "email" with
      | none =>
          exfalso
          apply he
          simp [dictGet, hge, PyVal.truthy]
      | some emailV =>
          have hitem : dictItem d "email" = .ok emailV := by
            simp [dictItem, hge]
          rw [hitem] at h ⊢
          dsimp only at h ⊢
          cases hv : is_valid_emailV emailV with
          | error e => rw [hv] at h; cases h
          | ok b =>
              rw [hv] at h
              cases b
              · cases h
              · dsimp only at h ⊢
                cases hgn : dictGet? d "name" with
                | none =>
                    exfalso
                    apply hn
                    simp [dictGet, hgn, PyVal.truthy]
                | some nameV =>
                    have hitem2 : dictItem d "name" = .ok nameV := by
                      simp [dictItem, hgn]
                    rw [hitem2] at h ⊢
                    dsimp only at h ⊢
                    cases hg : floatV (dictGetD d "gpa" (.num 0)) with
                    | error e => rw [hg] at h; cases h
                    | ok g =>
                        rw [hg] at h
                        dsimp only at h ⊢
                        injection h with h2
                        exact ⟨nameV, emailV, g, rfl, rfl, rfl, h2.symm, by rw [h2]⟩

theorem add_student_name_falsy {σ : Type} (M : StorageModel σ)
    (newId now : String) (d : PyDict) (st : σ)
    (h : (dictGet d "name").truthy = false) :
    add_student M newId now d st =
      (.error (.valueError "Name is required."), st) := by
  unfold add_student
  rw [if_pos h]

theorem add_student_email_falsy {σ : Type} (M : StorageModel σ)
    (newId now : String) (d : PyDict) (st : σ)
    (h1 : (dictGet d "name").truthy = true)
    (h2 : (dictGet d "email").truthy = false) :
    add_student M newId now d st =
      (.error (.valueError "A valid email is required."), st) := by
  unfold add_student
  rw [if_neg (by simp [h1]), if_pos h2]

theorem add_student_email_invalid {σ : Type} (M : StorageModel σ)
    (newId now : String) (d : PyDict) (st : σ) (e : String)
    (h1 : (dictGet d "name").truthy = true)
    (h2 : (dictGet d "email").truthy = true)
    (hev : dictGet? d "email" = some (.str e))
    (hinv : is_valid_email e = false) :
    add_student M newId now d st =
      (.error (.valueError "A valid email is required."), st) := by
  unfold add_student
  rw [if_neg (by simp [h1]), if_neg (by simp [h2])]
  have hitem : dictItem d "email" = .ok (.str e) := by simp [dictItem, hev]
  rw [hitem]
  dsimp only
  simp [is_valid_emailV, hinv]

theorem add_student_validated {σ : Type} (M : StorageModel σ)
    (newId now : String) (d : PyDict) (st : σ) (nameV : PyVal) (e : String)
    (hnv : dictGet? d "name" = some nameV) (h1 : nameV.truthy = true)
    (hev : dictGet? d "email" = some (.str e)) (h2 : e.isEmpty = false)
    (hval : is_valid_email e = true) :
    add_student M newId now d st =
      match floatV (dictGetD d "gpa" (.num 0)) with
      | .error err => (.error err, st)
      | .ok g =>
          (.ok (Student.to_dict
             { student_id := newId, name := nameV, email := .str e,
               course := dictGetD d "course" (.str ""),
               year_level := dictGetD d "year_level" (.str ""),
               gpa := g, created_at := now, updated_at := now }),
           M.save (M.load st ++
             [Student.to_dict
               { student_id := newId, name := nameV, email := .str e,
                 course := dictGetD d "course" (.str ""),
                 year_level := dictGetD d "year_level" (.str ""),
                 gpa := g, created_at := now, updated_at := now }]) st) := by
  have hga : dictGet d "name" = nameV := by simp [dictGet, hnv]
  have hgb : dictGet d "email" = .str e := by simp [dictGet, hev]
  unfold add_student
  rw [if_neg (by simp [hga, h1]), if_neg (by simp [hgb, PyVal.truthy, h2])]
  have hitem : dictItem d "email" = .ok (.str e) := by simp [dictItem, hev]
  have hitem2 : dictItem d "name" = .ok nameV := by simp [dictItem, hnv]
  rw [hitem]
  dsimp only
  rw [show is_valid_emailV (.str e) = .ok true by simp [is_valid_emailV, hval]]
  dsimp only
  rw [hitem2]

theorem floatV_error_not_validation_msg (v : PyVal) (err : PyErr)
    (h : floatV v = .error err) :
    err ≠ .valueError "Name is required." ∧
    err ≠ .valueError "A valid email is required." := by
  cases v with
  | num q => cases h
  | bool b => cases h
  | none_ =>
      injection h with h2
      subst h2
      refine ⟨fun hh => ?_, fun hh => ?_⟩
      · cases hh
      · cases hh
  | str s =>
      simp only [floatV] at h
      cases hp : parseFloat s with
      | some q => rw [hp] at h; cases h
      | none =>
          rw [hp] at h
          injection h with h2
          subst h2
          constructor
          · intro hh
            injection hh with h3
            have hlen := congrArg String.length h3
            rw [String.length_append] at hlen
            have h35 : ("could not convert string to float: ").length = 35 := by decide
            have h17 : ("Name is required.").length = 17 := by decide
            omega
          · intro hh
            injection hh with h3
            have hlen := congrArg String.length h3
            rw [String.length_append] at hlen
            have h35 : ("could not convert string to float: ").length = 35 := by decide
            have h26 : ("A valid email is required.").length = 26 := by decide
            omega

/-- C1: for every input map whose name and email fields are strings or
absent, `add_student` fails with one of the two validation errors exactly
when the name is missing or empty, or the email is missing or fails the
shape check of the regular expression; and in every such failure case the
storage state is unchanged (no write occurs), so the stored collection is
constant. -/
theorem add_student_validation_error_iff {σ : Type} (M : StorageModel σ)
    (newId now : String) (d : PyDict) (st : σ)
    (hn : isStrOrAbsent (dictGet d "name") = true)
    (he : isStrOrAbsent (dictGet d "email") = true) :
    (((add_student M newId now d st).1 =
        .error (.valueError "Name is required.") ∨
      (add_student M newId now d st).1 =
        .error (.valueError "A valid email is required.")) ↔
      (nameMissingOrEmpty (dictGet d "name") = true ∨
       emailMissingOrBad (dictGet d "email") = true)) ∧
    ((nameMissingOrEmpty (dictGet d "name") = true ∨
      emailMissingOrBad (dictGet d "email") = true) →
      (add_student M newId now d st).2 = st ∧
      get_all_students M (add_student M newId now d st).2 =
        get_all_students M st) := by
  by_cases hnt : (dictGet d "name").truthy = false
  · have hadd := add_student_name_falsy M newId now d st hnt
    have hrhs : nameMissingOrEmpty (dictGet d "name") = true := by
      cases hv : dictGet d "name" with
      | str s =>
          rw [hv] at hnt
          simp only [PyVal.truthy] at hnt
          simp at hnt
          simp [nameMissingOrEmpty, hnt]
      | num q => rw [hv] at hn; simp [isStrOrAbsent] at hn
      | bool b => rw [hv] at hn; simp [isStrOrAbsent] at hn
      | none_ => simp [nameMissingOrEmpty]
    refine ⟨⟨fun _ => Or.inl hrhs, fun _ => Or.inl ?_⟩, fun _ => ⟨?_, ?_⟩⟩
    · rw [hadd]
    · rw [hadd]
    · rw [hadd]
  · have hnt2 : (dictGet d "name").truthy = true := by
      simp at hnt
      exact hnt
    have hnameF : nameMissingOrEmpty (dictGet d "name") = false := by
      cases hv : dictGet d "name" with
      | str s =>
          rw [hv] at hnt2
          simp only [PyVal.truthy] at hnt2
          simp at hnt2
          simp [nameMissingOrEmpty, hnt2]
      | num q => simp [nameMissingOrEmpty]
      | bool b => simp [nameMissingOrEmpty]
      | none_ => rw [hv] at hnt2; simp [PyVal.truthy] at hnt2
    by_cases het : (dictGet d "email").truthy = false
    · have hadd := add_student_email_falsy M newId now d st hnt2 het
      have hrhs : emailMissingOrBad (dictGet d "email") = true := by
        cases hv : dictGet d "email" with
        | str s =>
            rw [hv] at het
            simp only [PyVal.truthy] at het
            simp at het
            have hs : s = "" := (String.isEmpty_iff s).mp het
            subst hs
            decide
        | num q => rw [hv] at he; simp [isStrOrAbsent] at he
        | bool b => rw [hv] at he; simp [isStrOrAbsent] at he
        | none_ => simp [emailMissingOrBad]
      refine ⟨⟨fun _ => Or.inr hrhs, fun _ => Or.inr ?_⟩, fun _ => ⟨?_, ?_⟩⟩
      · rw [hadd]
      · rw [hadd]
      · rw [hadd]
    · have het2 : (dictGet d "email").truthy = true := by
        simp at het
        exact het
      cases hge : dictGet? d "email" with
      | none =>
          exfalso
          rw [show dictGet d "email" = .none_ from by simp [dictGet, hge]] at het2
          simp [PyVal.truthy] at het2
      | some ev =>
          have hgeq : dictGet d "email" = ev := by simp [dictGet, hge]
          cases ev with
          | num q => rw [hgeq] at he; simp [isStrOrAbsent] at he
          | bool b => rw [hgeq] at he; simp [isStrOrAbsent] at he
          | none_ => rw [hgeq] at het2; simp [PyVal.truthy] at het2
          | str e =>
              by_cases hval : is_valid_email e = true
              · cases hn0 : dictGet? d "name" with
                | none =>
                    exfalso
                    rw [show dictGet d "name" = .none_ from by
                      simp [dictGet, hn0]] at hnt2
                    simp [PyVal.truthy] at hnt2
                | some nameV =>
                    have hnn : dictGet d "name" = nameV := by simp [dictGet, hn0]
                    have hemp : e.isEmpty = false := by
                      rw [hgeq] at het2
                      simp only [PyVal.truthy] at het2
                      simpa using het2
                    have hadd := add_student_validated M newId now d st nameV e
                      hn0 (hnn ▸ hnt2) hge hemp hval
                    have hrhsF : emailMissingOrBad (dictGet d "email") = false := by
                      rw [hgeq]
                      simp [emailMissingOrBad, hval]
                    constructor
                    · constructor
                      · intro hlhs
                        exfalso
                        rw [hadd] at hlhs
                        cases hg : floatV (dictGetD d "gpa" (.num 0)) with
                        | ok g =>
                            rw [hg] at hlhs
                            dsimp only at hlhs
                            rcases hlhs with h | h <;> cases h
                        | error err =>
                            rw [hg] at hlhs
                            dsimp only at hlhs
                            have hne := floatV_error_not_validation_msg _ _ hg
                            rcases hlhs with h | h
                            · exact hne.1 (by injection h)
                            · exact hne.2 (by injection h)
                      · intro hrhs
                        exfalso
                        rcases hrhs with h | h
                        · rw [hnameF] at h; cases h
                        · rw [hrhsF] at h; cases h
                    · intro hrhs
                      exfalso
                      rcases hrhs with h | h
                      · rw [hnameF] at h; cases h
                      · rw [hrhsF] at h; cases h
              · have hinv : is_valid_email e = false := by
                  simpa using hval
                have hadd := add_student_email_invalid M newId now d st e
                  hnt2 het2 hge hinv
                have hrhs : emailMissingOrBad (dictGet d "email") = true := by
                  rw [hgeq]
                  simp [emailMissingOrBad, hinv]
                refine ⟨⟨fun _ => Or.inr hrhs, fun _ => Or.inr ?_⟩,
                  fun _ => ⟨?_, ?_⟩⟩
                · rw [hadd]
                · rw [hadd]
                · rw [hadd]

theorem to_dict_get_student_id (stud : Student) :
    dictGet (Student.to_dict stud) "student_id" = .str stud.student_id := rfl

theorem to_dict_get_name (stud : Student) :
    dictGet (Student.to_dict stud) "name" = stud.name := rfl

theorem to_dict_get_email (stud : Student) :
    dictGet (Student.to_dict stud) "email" = stud.email := rfl

theorem to_dict_get_course (stud : Student) :
    dictGet (Student.to_dict stud) "course" = stud.course := rfl

theorem to_dict_get_year_level (stud : Student) :
    dictGet (Student.to_dict stud) "year_level" = stud.year_level := rfl

theorem to_dict_get_gpa (stud : Student) :
    dictGet (Student.to_dict stud) "gpa" = .num stud.gpa := rfl

theorem to_dict_get_created_at (stud : Student) :
    dictGet (Student.to_dict stud) "created_at" = .str stud.created_at := rfl

theorem to_dict_get_updated_at (stud : Student) :
    dictGet (Student.to_dict stud) "updated_at" = .str stud.updated_at := rfl

/-- Witness for C1 at a concrete input: the name field is missing, so the
operation fails validation and the backing file is untouched. -/
theorem add_student_validation_error_iff_witness :
    (add_student jsonStorage "aaaa1111" "2026-01-01T00:00:00"
      [("email", .str "ana@example.com")] (.rows [])).2 = .rows [] :=
  ((add_student_validation_error_iff jsonStorage "aaaa1111"
      "2026-01-01T00:00:00" [("email", .str "ana@example.com")] (.rows [])
      (by decide) (by decide)).2 (Or.inl (by decide))).1

/-- C9: `add_student` reads its input only through the five recognized
keys, so two inputs agreeing on them (whatever else they carry, including
caller-supplied student_id, created_at or updated_at) produce identical
results and states; moreover every successfully stored record carries the
freshly generated identifier and the fresh timestamps. -/
theorem add_student_ignores_unrecognized_keys {σ : Type} (M : StorageModel σ)
    (newId now : String) (d1 d2 : PyDict) (st : σ)
    (hagree : ∀ k ∈ (["name", "email", "course", "year_level", "gpa"] :
        List String), dictGet? d1 k = dictGet? d2 k) :
    add_student M newId now d1 st = add_student M newId now d2 st ∧
    (∀ r, (add_student M newId now d1 st).1 = .ok r →
      dictGet r "student_id" = .str newId ∧
      dictGet r "created_at" = .str now ∧
      dictGet r "updated_at" = .str now) := by
  have hna := hagree "name" (by simp)
  have hea := hagree "email" (by simp)
  have hca := hagree "course" (by simp)
  have hya := hagree "year_level" (by simp)
  have hga := hagree "gpa" (by simp)
  constructor
  · unfold add_student
    simp only [dictGet, dictGetD, dictItem, hna, hea, hca, hya, hga]
  · intro r hok
    obtain ⟨nameV, emailV, g, hn0, he0, hg0, hr, hsnd⟩ :=
      add_student_ok_elim M newId now d1 st r hok
    subst hr
    exact ⟨to_dict_get_student_id _, to_dict_get_created_at _,
      to_dict_get_updated_at _⟩

/-- Witness for C9: a caller-supplied student_id and created_at are
ignored, and the generated identifier and stamps are used. -/
theorem add_student_ignores_unrecognized_keys_witness :
    add_student jsonStorage "bbbb2222" "2026-01-02T00:00:00"
      [("student_id", .str "HACK"), ("name", .str "Ana"),
       ("email", .str "ana@example.com"), ("created_at", .str "1999")]
      (.rows []) =
    add_student jsonStorage "bbbb2222" "2026-01-02T00:00:00"
      [("name", .str "Ana"), ("email", .str "ana@example.com")]
      (.rows []) :=
  (add_student_ignores_unrecognized_keys jsonStorage "bbbb2222"
    "2026-01-02T00:00:00"
    [("student_id", .str "HACK"), ("name", .str "Ana"),
     ("email", .str "ana@example.com"), ("created_at", .str "1999")]
    [("name", .str "Ana"), ("email", .str "ana@example.com")]
    (.rows []) (by decide)).1

/-- C2: after a successful `add_student` on a store whose load-save
round-trip is faithful at the new collection and which holds no record
with the fresh identifier, `get_student` on the new identifier returns
exactly the stored record, whose fields equal the input (course and year
level defaulting to the empty string, gpa as the converted float
defaulting to 0.0 when absent) and whose created_at equals updated_at,
both being the operation timestamp. -/
theorem add_then_get_student_roundtrip {σ : Type} (M : StorageModel σ)
    (newId now : String) (d : PyDict) (st : σ) (r : PyDict)
    (hok : (add_student M newId now d st).1 = .ok r)
    (hrt : M.load (M.save (M.load st ++ [r]) st) = M.load st ++ [r])
    (hfresh : ∀ s ∈ M.load st, idMatches newId s = false) :
    get_student M newId (add_student M newId now d st).2 = some r ∧
    dictGet r "name" = dictGet d "name" ∧
    dictGet r "email" = dictGet d "email" ∧
    dictGet r "course" = dictGetD d "course" (.str "") ∧
    dictGet r "year_level" = dictGetD d "year_level" (.str "") ∧
    (∃ g, floatV (dictGetD d "gpa" (.num 0)) = .ok g ∧
      dictGet r "gpa" = .num g) ∧
    dictGet r "created_at" = .str now ∧
    dictGet r "updated_at" = .str now ∧
    dictGet r "created_at" = dictGet r "updated_at" := by
  obtain ⟨nameV, emailV, g, hn0, he0, hg0, hr, hsnd⟩ :=
    add_student_ok_elim M newId now d st r hok
  have hmatch : idMatches newId r = true := by
    rw [hr]
    simp [idMatches, to_dict_get_student_id, pyEq]
  constructor
  · unfold get_student
    rw [hsnd, hrt]
    exact find?_append_singleton _ _ _ hfresh hmatch
  · refine ⟨?_, ?_, ?_, ?_, ⟨g, hg0, ?_⟩, ?_, ?_, ?_⟩ <;> rw [hr]
    · rw [to_dict_get_name]
      simp [dictGet, hn0]
    · rw [to_dict_get_email]
      simp [dictGet, he0]
    · rw [to_dict_get_course]
    · rw [to_dict_get_year_level]
    · rw [to_dict_get_gpa]
    · rw [to_dict_get_created_at]
    · rw [to_dict_get_updated_at]
    · rw [to_dict_get_created_at, to_dict_get_updated_at]

/-- Witness for C2: the concrete scenario of the specification, adding
Ana Cruz with gpa 3.5 to an empty store and fetching her back. -/
theorem add_then_get_student_roundtrip_witness :
    get_student jsonStorage "abc12345"
      (add_student jsonStorage "abc12345" "2026-01-01T00:00:00"
        [("name", .str "Ana Cruz"), ("email", .str "ana@example.com"),
         ("course", .str "CS"), ("year_level", .str "2"),
         ("gpa", .num (mkRat 7 2))] (.rows [])).2 =
    some [("student_id", .str "abc12345"), ("name", .str "Ana Cruz"),
          ("email", .str "ana@example.com"), ("course", .str "CS"),
          ("year_level", .str "2"), ("gpa", .num (mkRat 7 2)),
          ("created_at", .str "2026-01-01T00:00:00"),
          ("updated_at", .str "2026-01-01T00:00:00")] :=
  (add_then_get_student_roundtrip jsonStorage "abc12345"
    "2026-01-01T00:00:00"
    [("name", .str "Ana Cruz"), ("email", .str "ana@example.com"),
     ("course", .str "CS"), ("year_level", .str "2"),
     ("gpa", .num (mkRat 7 2))] (.rows [])
    [("student_id", .str "abc12345"), ("name", .str "Ana Cruz"),
     ("email", .str "ana@example.com"), ("course", .str "CS"),
     ("year_level", .str "2"), ("gpa", .num (mkRat 7 2)),
     ("created_at", .str "2026-01-01T00:00:00"),
     ("updated_at", .str "2026-01-01T00:00:00")]
    rfl rfl (by decide)).1

/-- C3: a successful `update_student` on an existing identifier saves the
collection with only the first matching record replaced; the updated
record agrees with the old one on every key outside the five allowed
fields and updated_at (in particular student_id and created_at never
change), keeps every allowed field that the partial input does not
supply, takes every supplied allowed field from the input (gpa through
the float coercion), and carries the refreshed updated_at stamp. -/
theorem update_student_frame {σ : Type} (M : StorageModel σ)
    (now student_id : String) (u : PyDict) (st : σ)
    (pre post : List PyDict) (old r : PyDict)
    (hsplit : M.load st = pre ++ old :: post)
    (hpre : ∀ s ∈ pre, idMatches student_id s = false)
    (hold : idMatches student_id old = true)
    (hok : (update_student M now student_id u st).1 = .ok (some r)) :
    (update_student M now student_id u st).2 =
      M.save (pre ++ r :: post) st ∧
    (∀ k, k ∉ (["name", "email", "course", "year_level", "gpa",
        "updated_at"] : List String) → dictGet r k = dictGet old k) ∧
    dictGet r "student_id" = dictGet old "student_id" ∧
    dictGet r "created_at" = dictGet old "created_at" ∧
    (∀ k ∈ (["name", "email", "course", "year_level", "gpa"] : List String),
      dictHas u k = false → dictGet r k = dictGet old k) ∧
    (∀ k ∈ (["name", "email", "course", "year_level"] : List String),
      dictHas u k = true → dictGet r k = dictGet u k) ∧
    (dictHas u "gpa" = true →
      (∃ q, floatV (dictGet u "gpa") = .ok q ∧ dictGet r "gpa" = .num q) ∨
      (∃ m, floatV (dictGet u "gpa") = .error (.valueError m) ∧
        dictGet r "gpa" = .num 0)) ∧
    dictGet r "updated_at" = .str now := by
  cases happ : applyUpdates now u old with
  | error e =>
      exfalso
      have hs := updateScan_split_err now student_id u pre post old e
        hpre hold happ
      unfold update_student at hok
      rw [hsplit, hs] at hok
      cases hok
  | ok rr =>
      have hs := updateScan_split_ok now student_id u pre post old rr
        hpre hold happ
      unfold update_student at hok
      rw [hsplit, hs] at hok
      dsimp only at hok
      injection hok with hok2
      injection hok2 with hok3
      subst hok3
      obtain ⟨s1, s2, s3, s4, s5, h1, h2, h3, h4, h5, hr⟩ :=
        applyUpdates_ok_elim now u old rr happ
      refine ⟨?_, ?_, ?_, ?_, ?_, ?_, ?_, ?_⟩
      · unfold update_student
        rw [hsplit, hs]
      · intro k hk
        have hk5 : k ∈ (["name", "email", "course", "year_level", "gpa"] :
            List String) → dictHas u k = false := by
          intro hmem
          exfalso
          apply hk
          rcases (by simpa using hmem : k = "name" ∨ k = "email" ∨
            k = "course" ∨ k = "year_level" ∨ k = "gpa") with
            rfl | rfl | rfl | rfl | rfl <;> simp
        have hu : k ≠ "updated_at" := by
          intro hh
          exact hk (by simp [hh])
        have hfr := applyUpdates_frame now u old rr k happ hk5 hu
        simp [dictGet, hfr]
      · have hfr := applyUpdates_frame now u old rr "student_id" happ
          (by intro hmem; simp at hmem) (by decide)
        simp [dictGet, hfr]
      · have hfr := applyUpdates_frame now u old rr "created_at" happ
          (by intro hmem; simp at hmem) (by decide)
        simp [dictGet, hfr]
      · intro k hk hhas
        have hu : k ≠ "updated_at" := by
          rcases (by simpa using hk : k = "name" ∨ k = "email" ∨
            k = "course" ∨ k = "year_level" ∨ k = "gpa") with
            rfl | rfl | rfl | rfl | rfl <;> decide
        have hfr := applyUpdates_frame now u old rr k happ (fun _ => hhas) hu
        simp [dictGet, hfr]
      · intro k hk hhas
        rcases (by simpa using hk : k = "name" ∨ k = "email" ∨
          k = "course" ∨ k = "year_level") with rfl | rfl | rfl | rfl
        · have hset : s1 = dictSet old "name" (dictGet u "name") := by
            rw [updateField_of_has_plain u old "name" hhas (by decide)
              (by decide)] at h1
            injection h1 with hh
            exact hh.symm
          have e1 : dictGet? s1 "name" = some (dictGet u "name") := by
            rw [hset, dictGet?_set_self]
          have e2 := updateField_ok_get_ne u s1 s2 "email" "name" h2 (by decide)
          have e3 := updateField_ok_get_ne u s2 s3 "course" "name" h3 (by decide)
          have e4 := updateField_ok_get_ne u s3 s4 "year_level" "name" h4
            (by decide)
          have e5 := updateField_ok_get_ne u s4 s5 "gpa" "name" h5 (by decide)
          have e6 : dictGet? rr "name" = dictGet? s5 "name" := by
            rw [hr, dictGet?_set_ne _ _ _ _ (by decide)]
          simp [dictGet, e6, e5, e4, e3, e2, e1]
        · obtain ⟨e, heq, hval, hset⟩ :=
            updateField_email_ok_elim u s1 s2 hhas h2
          have e1 : dictGet? s2 "email" = some (.str e) := by
            rw [hset, dictGet?_set_self]
          have e3 := updateField_ok_get_ne u s2 s3 "course" "email" h3
            (by decide)
          have e4 := updateField_ok_get_ne u s3 s4 "year_level" "email" h4
            (by decide)
          have e5 := updateField_ok_get_ne u s4 s5 "gpa" "email" h5 (by decide)
          have e6 : dictGet? rr "email" = dictGet? s5 "email" := by
            rw [hr, dictGet?_set_ne _ _ _ _ (by decide)]
          rw [heq]
          simp [dictGet, e6, e5, e4, e3, e1]
        · have hset : s3 = dictSet s2 "course" (dictGet u "course") := by
            rw [updateField_of_has_plain u s2 "course" hhas (by decide)
              (by decide)] at h3
            injection h3 with hh
            exact hh.symm
          have e1 : dictGet? s3 "course" = some (dictGet u "course") := by
            rw [hset, dictGet?_set_self]
          have e4 := updateField_ok_get_ne u s3 s4 "year_level" "course" h4
            (by decide)
          have e5 := updateField_ok_get_ne u s4 s5 "gpa" "course" h5 (by decide)
          have e6 : dictGet? rr "course" = dictGet? s5 "course" := by
            rw [hr, dictGet?_set_ne _ _ _ _ (by decide)]
          simp [dictGet, e6, e5, e4, e1]
        · have hset : s4 = dictSet s3 "year_level" (dictGet u "year_level") := by
            rw [updateField_of_has_plain u s3 "year_level" hhas (by decide)
              (by decide)] at h4
            injection h4 with hh
            exact hh.symm
          have e1 : dictGet? s4 "year_level" =
              some (dictGet u "year_level") := by
            rw [hset, dictGet?_set_self]
          have e5 := updateField_ok_get_ne u s4 s5 "gpa" "year_level" h5
            (by decide)
          have e6 : dictGet? rr "year_level" = dictGet? s5 "year_level" := by
            rw [hr, dictGet?_set_ne _ _ _ _ (by decide)]
          simp [dictGet, e6, e5, e1]
      · intro hhas
        have e6 : dictGet? rr "gpa" = dictGet? s5 "gpa" := by
          rw [hr, dictGet?_set_ne _ _ _ _ (by decide)]
        rcases updateField_gpa_ok_elim u s4 s5 hhas h5 with
          ⟨q, hq, hset⟩ | ⟨m, hm, hset⟩
        · refine Or.inl ⟨q, hq, ?_⟩
          have e1 : dictGet? s5 "gpa" = some (.num q) := by
            rw [hset, dictGet?_set_self]
          simp [dictGet, e6, e1]
        · refine Or.inr ⟨m, hm, ?_⟩
          have e1 : dictGet? s5 "gpa" = some (.num 0) := by
            rw [hset, dictGet?_set_self]
          simp [dictGet, e6, e1]
      · rw [hr]
        simp [dictGet, dictGet?_set_self]

/-- Witness for C3: updating only the name of the single stored record
replaces just that record, refreshes updated_at, and keeps created_at. -/
theorem update_student_frame_witness :
    dictGet [("student_id", .str "id1"), ("name", .str "Bob"),
        ("email", .str "a@b.c"), ("course", .str "CS"),
        ("year_level", .str "2"), ("gpa", .num 3),
        ("created_at", .str "t0"), ("updated_at", .str "t1")] "created_at" =
      dictGet [("student_id", .str "id1"), ("name", .str "Ana"),
        ("email", .str "a@b.c"), ("course", .str "CS"),
        ("year_level", .str "2"), ("gpa", .num 3),
        ("created_at", .str "t0"), ("updated_at", .str "t0")] "created_at" :=
  (update_student_frame jsonStorage "t1" "id1" [("name", .str "Bob")]
    (.rows [[("student_id", .str "id1"), ("name", .str "Ana"),
      ("email", .str "a@b.c"), ("course", .str "CS"),
      ("year_level", .str "2"), ("gpa", .num 3),
      ("created_at", .str "t0"), ("updated_at", .str "t0")]])
    [] []
    [("student_id", .str "id1"), ("name", .str "Ana"),
     ("email", .str "a@b.c"), ("course", .str "CS"),
     ("year_level", .str "2"), ("gpa", .num 3),
     ("created_at", .str "t0"), ("updated_at", .str "t0")]
    [("student_id", .str "id1"), ("name", .str "Bob"),
     ("email", .str "a@b.c"), ("course", .str "CS"),
     ("year_level", .str "2"), ("gpa", .num 3),
     ("created_at", .str "t0"), ("updated_at", .str "t1")]
    rfl (by decide) (by decide) rfl).2.2.2.1

/-- C10: `update_student` with an empty partial input on an existing
identifier still succeeds: it returns the record with only updated_at
refreshed and rewrites the whole collection (with just that record
changed) to storage. -/
theorem update_student_empty_update {σ : Type} (M : StorageModel σ)
    (now student_id : String) (st : σ) (pre post : List PyDict)
    (old : PyDict)
    (hsplit : M.load st = pre ++ old :: post)
    (hpre : ∀ s ∈ pre, idMatches student_id s = false)
    (hold : idMatches student_id old = true) :
    update_student M now student_id [] st =
      (.ok (some (dictSet old "updated_at" (.str now))),
       M.save (pre ++ dictSet old "updated_at" (.str now) :: post) st) ∧
    (∀ k, k ≠ "updated_at" →
      dictGet (dictSet old "updated_at" (.str now)) k = dictGet old k) ∧
    dictGet (dictSet old "updated_at" (.str now)) "updated_at" = .str now := by
  have happ : applyUpdates now [] old =
      .ok (dictSet old "updated_at" (.str now)) := rfl
  have hs := updateScan_split_ok now student_id [] pre post old
    (dictSet old "updated_at" (.str now)) hpre hold happ
  refine ⟨?_, ?_, ?_⟩
  · unfold update_student
    rw [hsplit, hs]
  · intro k hk
    rw [dictGet_set_ne _ _ _ _ hk]
  · rw [dictGet_set_self]

/-- Witness for C10: an empty update on the only stored record refreshes
updated_at and saves the one-record collection back. -/
theorem update_student_empty_update_witness :
    update_student jsonStorage "t1" "id1" []
      (.rows [[("student_id", .str "id1"), ("name", .str "Ana"),
        ("updated_at", .str "t0")]]) =
      (.ok (some [("student_id", .str "id1"), ("name", .str "Ana"),
        ("updated_at", .str "t1")]),
       .rows [[("student_id", .str "id1"), ("name", .str "Ana"),
        ("updated_at", .str "t1")]]) :=
  (update_student_empty_update jsonStorage "t1" "id1"
    (.rows [[("student_id", .str "id1"), ("name", .str "Ana"),
      ("updated_at", .str "t0")]])
    [] [] [("student_id", .str "id1"), ("name", .str "Ana"),
      ("updated_at", .str "t0")]
    rfl (by decide) (by decide)).1

/-- C6: `update_student` on an identifier that matches no stored record
returns the not-found marker and leaves the state unchanged; and on an
existing identifier with a supplied email that fails the validity check
it raises the validation error before any write, so the state is also
unchanged. -/
theorem update_student_not_found_and_invalid_email {σ : Type}
    (M : StorageModel σ) (now student_id : String) (u : PyDict) (st : σ) :
    ((∀ s ∈ M.load st, idMatches student_id s = false) →
      update_student M now student_id u st = (.ok none, st)) ∧
    (∀ pre post old e,
      M.load st = pre ++ old :: post →
      (∀ s ∈ pre, idMatches student_id s = false) →
      idMatches student_id old = true →
      dictGet? u "email" = some (.str e) →
      is_valid_email e = false →
      update_student M now student_id u st =
        (.error (.valueError "Invalid email format."), st)) := by
  constructor
  · intro hnone
    have hs := updateScan_of_no_match now student_id u (M.load st) hnone
    unfold update_student
    rw [hs]
  · intro pre post old e hsplit hpre hold hge hinv
    have hstep1 : ∃ s1, updateField u old "name" = .ok s1 := by
      by_cases hhas : dictHas u "name"
      · exact ⟨_, updateField_of_has_plain u old "name" hhas (by decide)
          (by decide)⟩
      · exact ⟨old, updateField_of_not_has u old "name" (by simpa using hhas)⟩
    obtain ⟨s1, h1⟩ := hstep1
    have h2 := updateField_of_has_email_invalid u s1 e hge hinv
    have happ : applyUpdates now u old =
        .error (.valueError "Invalid email format.") := by
      unfold applyUpdates
      rw [h1]
      dsimp only
      rw [h2]
    have hs := updateScan_split_err now student_id u pre post old _
      hpre hold happ
    unfold update_student
    rw [hsplit, hs]

/-- Witness for C6: an unknown identifier is reported as not found with
the store untouched, and an update carrying a shape-failing email on an
existing record raises the validation error with the store untouched. -/
theorem update_student_not_found_and_invalid_email_witness :
    (update_student jsonStorage "t1" "zz"
      [("name", .str "Bob")]
      (.rows [[("student_id", .str "id1")]]) =
      (.ok none, .rows [[("student_id", .str "id1")]])) ∧
    (update_student jsonStorage "t1" "id1"
      [("email", .str "not-an-email")]
      (.rows [[("student_id", .str "id1")]]) =
      (.error (.valueError "Invalid email format."),
       .rows [[("student_id", .str "id1")]])) :=
  ⟨(update_student_not_found_and_invalid_email jsonStorage "t1" "zz"
      [("name", .str "Bob")] (.rows [[("student_id", .str "id1")]])).1
      (by decide),
   (update_student_not_found_and_invalid_email jsonStorage "t1" "id1"
      [("email", .str "not-an-email")]
      (.rows [[("student_id", .str "id1")]])).2
      [] [] [("student_id", .str "id1")] "not-an-email"
      rfl (by decide) (by decide) rfl (by decide)⟩

theorem applyUpdates_get_plain (now : String) (u s r : PyDict) (k : String)
    (happ : applyUpdates now u s = .ok r)
    (hk : k ∈ (["name", "course", "year_level"] : List String))
    (hhas : dictHas u k = true) :
    dictGet? r k = some (dictGet u k) := by
  obtain ⟨s1, s2, s3, s4, s5, h1, h2, h3, h4, h5, hr⟩ :=
    applyUpdates_ok_elim now u s r happ
  rcases (by simpa using hk : k = "name" ∨ k = "course" ∨ k = "year_level")
    with rfl | rfl | rfl
  · have hset : s1 = dictSet s "name" (dictGet u "name") := by
      rw [updateField_of_has_plain u s "name" hhas (by decide)
        (by decide)] at h1
      injection h1 with hh
      exact hh.symm
    rw [hr, dictGet?_set_ne _ _ _ _ (by decide),
      updateField_ok_get_ne u s4 s5 "gpa" "name" h5 (by decide),
      updateField_ok_get_ne u s3 s4 "year_level" "name" h4 (by decide),
      updateField_ok_get_ne u s2 s3 "course" "name" h3 (by decide),
      updateField_ok_get_ne u s1 s2 "email" "name" h2 (by decide),
      hset, dictGet?_set_self]
  · have hset : s3 = dictSet s2 "course" (dictGet u "course") := by
      rw [updateField_of_has_plain u s2 "course" hhas (by decide)
        (by decide)] at h3
      injection h3 with hh
      exact hh.symm
    rw [hr, dictGet?_set_ne _ _ _ _ (by decide),
      updateField_ok_get_ne u s4 s5 "gpa" "course" h5 (by decide),
      updateField_ok_get_ne u s3 s4 "year_level" "course" h4 (by decide),
      hset, dictGet?_set_self]
  · have hset : s4 = dictSet s3 "year_level" (dictGet u "year_level") := by
      rw [updateField_of_has_plain u s3 "year_level" hhas (by decide)
        (by decide)] at h4
      injection h4 with hh
      exact hh.symm
    rw [hr, dictGet?_set_ne _ _ _ _ (by decide),
      updateField_ok_get_ne u s4 s5 "gpa" "year_level" h5 (by decide),
      hset, dictGet?_set_self]

/-- C5: on an existing identifier, an update whose supplied gpa is a
string that float() cannot parse does not fail: the record ends with gpa
0.0, updated_at is refreshed, the collection is saved, other supplied
fields are applied and unsupplied ones kept (provided a supplied email,
if any, passes the validity check, as the claim assumes the gpa text is
the only problem). -/
theorem update_student_gpa_coerced_to_zero {σ : Type} (M : StorageModel σ)
    (now student_id : String) (u : PyDict) (st : σ)
    (pre post : List PyDict) (old : PyDict) (g : String)
    (hsplit : M.load st = pre ++ old :: post)
    (hpre : ∀ s ∈ pre, idMatches student_id s = false)
    (hold : idMatches student_id old = true)
    (hgpa : dictGet? u "gpa" = some (.str g))
    (hbad : parseFloat g = none)
    (hemail : dictHas u "email" = true →
      ∃ e, dictGet? u "email" = some (.str e) ∧ is_valid_email e = true) :
    ∃ r, update_student M now student_id u st =
        (.ok (some r), M.save (pre ++ r :: post) st) ∧
      dictGet r "gpa" = .num 0 ∧
      dictGet r "updated_at" = .str now ∧
      (∀ k ∈ (["name", "course", "year_level"] : List String),
        dictHas u k = true → dictGet r k = dictGet u k) ∧
      (∀ k ∈ (["name", "email", "course", "year_level"] : List String),
        dictHas u k = false → dictGet r k = dictGet old k) := by
  have hstep1 : ∃ s1, updateField u old "name" = .ok s1 := by
    by_cases hhas : dictHas u "name"
    · exact ⟨_, updateField_of_has_plain u old "name" hhas (by decide)
        (by decide)⟩
    · exact ⟨old, updateField_of_not_has u old "name" (by simpa using hhas)⟩
  obtain ⟨s1, h1⟩ := hstep1
  have hstep2 : ∃ s2, updateField u s1 "email" = .ok s2 := by
    by_cases hhas : dictHas u "email"
    · obtain ⟨e, hge, hval⟩ := hemail hhas
      exact ⟨_, updateField_of_has_email_valid u s1 e hge hval⟩
    · exact ⟨s1, updateField_of_not_has u s1 "email" (by simpa using hhas)⟩
  obtain ⟨s2, h2⟩ := hstep2
  have hstep3 : ∃ s3, updateField u s2 "course" = .ok s3 := by
    by_cases hhas : dictHas u "course"
    · exact ⟨_, updateField_of_has_plain u s2 "course" hhas (by decide)
        (by decide)⟩
    · exact ⟨s2, updateField_of_not_has u s2 "course" (by simpa using hhas)⟩
  obtain ⟨s3, h3⟩ := hstep3
  have hstep4 : ∃ s4, updateField u s3 "year_level" = .ok s4 := by
    by_cases hhas : dictHas u "year_level"
    · exact ⟨_, updateField_of_has_plain u s3 "year_level" hhas (by decide)
        (by decide)⟩
    · exact ⟨s3, updateField_of_not_has u s3 "year_level"
        (by simpa using hhas)⟩
  obtain ⟨s4, h4⟩ := hstep4
  have hhasg : dictHas u "gpa" = true := by simp [dictHas, hgpa]
  have hfv : floatV (dictGet u "gpa") =
      .error (.valueError ("could not convert string to float: " ++ g)) := by
    have : dictGet u "gpa" = .str g := by simp [dictGet, hgpa]
    rw [this]
    simp [floatV, hbad]
  have h5 := updateField_of_has_gpa_bad u s4 _ hhasg hfv
  have happ : applyUpdates now u old =
      .ok (dictSet (dictSet s4 "gpa" (.num 0)) "updated_at" (.str now)) := by
    unfold applyUpdates
    rw [h1]
    dsimp only
    rw [h2]
    dsimp only
    rw [h3]
    dsimp only
    rw [h4]
    dsimp only
    rw [h5]
  set r := dictSet (dictSet s4 "gpa" (.num 0)) "updated_at" (.str now) with hrdef
  have hs := updateScan_split_ok now student_id u pre post old r
    hpre hold happ
  refine ⟨r, ?_, ?_, ?_, ?_, ?_⟩
  · unfold update_student
    rw [hsplit, hs]
  · rw [hrdef, dictGet_set_ne _ _ _ _ (by decide), dictGet_set_self]
  · rw [hrdef, dictGet_set_self]
  · intro k hk hhas
    have := applyUpdates_get_plain now u old r k happ hk hhas
    simp [dictGet, this]
  · intro k hk hhas
    have hu : k ≠ "updated_at" := by
      rcases (by simpa using hk : k = "name" ∨ k = "email" ∨
        k = "course" ∨ k = "year_level") with rfl | rfl | rfl | rfl <;> decide
    have := applyUpdates_frame now u old r k happ (fun _ => hhas) hu
    simp [dictGet, this]

/-- Witness for C5: gpa text abc on an existing record is coerced to 0.0
while the rest of the update goes through. -/
theorem update_student_gpa_coerced_to_zero_witness :
    ∃ r, update_student jsonStorage "t1" "id1"
        [("name", .str "Bob"), ("gpa", .str "abc")]
        (.rows [[("student_id", .str "id1"), ("name", .str "Ana"),
          ("gpa", .num 3), ("updated_at", .str "t0")]]) =
        (.ok (some r),
         jsonStorage.save ([] ++ r ::
           ([] : List PyDict)) (.rows [[("student_id", .str "id1"),
             ("name", .str "Ana"), ("gpa", .num 3),
             ("updated_at", .str "t0")]])) ∧
      dictGet r "gpa" = .num 0 ∧
      dictGet r "updated_at" = .str "t1" ∧
      (∀ k ∈ (["name", "course", "year_level"] : List String),
        dictHas [("name", PyVal.str "Bob"), ("gpa", PyVal.str "abc")] k =
          true →
        dictGet r k =
          dictGet [("name", PyVal.str "Bob"), ("gpa", PyVal.str "abc")] k) ∧
      (∀ k ∈ (["name", "email", "course", "year_level"] : List String),
        dictHas [("name", PyVal.str "Bob"), ("gpa", PyVal.str "abc")] k =
          false →
        dictGet r k =
          dictGet [("student_id", .str "id1"), ("name", .str "Ana"),
            ("gpa", .num 3), ("updated_at", .str "t0")] k) :=
  update_student_gpa_coerced_to_zero jsonStorage "t1" "id1"
    [("name", .str "Bob"), ("gpa", .str "abc")]
    (.rows [[("student_id", .str "id1"), ("name", .str "Ana"),
      ("gpa", .num 3), ("updated_at", .str "t0")]])
    [] [] [("student_id", .str "id1"), ("name", .str "Ana"),
      ("gpa", .num 3), ("updated_at", .str "t0")] "abc"
    rfl (by decide) (by decide) rfl (by decide)
    (by intro hh; cases hh)

theorem length_filter_not_countP {α : Type} (p : α → Bool) (l : List α) :
    (l.filter (fun a => !(p a))).length = l.length - l.countP p := by
  induction l with
  | nil => simp
  | cons a rest ih =>
      have hle := List.countP_le_length p (l := rest)
      by_cases h : p a
      · simp [List.filter_cons, List.countP_cons, h, ih]
      · simp [List.filter_cons, List.countP_cons, h, ih]
        omega

/-- Counterexample to C4 as stated: with two stored records sharing the
identifier x, delete_student on x removes both, so the collection length
drops by 2, not by exactly 1, although x was present and true was
returned; the claim, quantified over every collection, is false. -/
theorem delete_student_length_counterexample :
    (∃ s ∈ jsonStorage.load (.rows [[("student_id", PyVal.str "x")],
        [("student_id", PyVal.str "x")]]), idMatches "x" s = true) ∧
    (delete_student jsonStorage "x"
      (.rows [[("student_id", PyVal.str "x")],
        [("student_id", PyVal.str "x")]])).1 = true ∧
    ¬ ((jsonStorage.load (delete_student jsonStorage "x"
          (.rows [[("student_id", PyVal.str "x")],
            [("student_id", PyVal.str "x")]])).2).length =
        (jsonStorage.load (.rows [[("student_id", PyVal.str "x")],
          [("student_id", PyVal.str "x")]])).length - 1) := by
  decide

/-- C4 amended: delete_student on a present identifier removes every
matching record (the length drops by the number of matches, hence by
exactly 1 when the identifier occurs exactly once), saves the filtered
collection, and returns true; on an absent identifier it returns false
and leaves the state unchanged, performing no save. -/
theorem delete_student_removes_all_matches {σ : Type} (M : StorageModel σ)
    (student_id : String) (st : σ) :
    ((∃ s ∈ M.load st, idMatches student_id s = true) →
      (delete_student M student_id st).1 = true ∧
      (delete_student M student_id st).2 =
        M.save ((M.load st).filter
          (fun s => !(idMatches student_id s))) st ∧
      ((M.load st).filter (fun s => !(idMatches student_id s))).length =
        (M.load st).length -
          (M.load st).countP (fun s => idMatches student_id s) ∧
      ((M.load st).countP (fun s => idMatches student_id s) = 1 →
        ((M.load st).filter (fun s => !(idMatches student_id s))).length =
          (M.load st).length - 1)) ∧
    ((∀ s ∈ M.load st, idMatches student_id s = false) →
      delete_student M student_id st = (false, st)) := by
  constructor
  · rintro ⟨s0, hs0mem, hs0⟩
    have hcpos : 0 < (M.load st).countP (fun s => idMatches student_id s) :=
      List.countP_pos_iff.mpr ⟨s0, hs0mem, hs0⟩
    have hlen := length_filter_not_countP
      (fun s => idMatches student_id s) (M.load st)
    have hcle := List.countP_le_length
      (fun s => idMatches student_id s) (l := M.load st)
    have hlpos : 0 < (M.load st).length := List.length_pos.mpr
      (by intro hh; rw [hh] at hs0mem; cases hs0mem)
    have hne : ((M.load st).filter
        (fun s => !(idMatches student_id s))).length ≠
        (M.load st).length := by omega
    have heq : delete_student M student_id st =
        (true, M.save ((M.load st).filter
          (fun s => !(idMatches student_id s))) st) := by
      simp only [delete_student]
      rw [if_neg hne]
    refine ⟨by rw [heq], by rw [heq], hlen, fun h1 => by rw [hlen, h1]⟩
  · intro hnone
    have hfeq : (M.load st).filter (fun s => !(idMatches student_id s)) =
        M.load st :=
      List.filter_eq_self.mpr (fun a ha => by simp [hnone a ha])
    simp only [delete_student]
    rw [hfeq, if_pos rfl]

/-- Witness for the amended C4: deleting a present identifier returns
true; deleting an absent one returns false and keeps the state. -/
theorem delete_student_removes_all_matches_witness :
    (delete_student jsonStorage "id1"
      (.rows [[("student_id", PyVal.str "id1")],
        [("student_id", PyVal.str "id2")]])).1 = true ∧
    delete_student jsonStorage "zz"
      (.rows [[("student_id", PyVal.str "id1")]]) =
      (false, .rows [[("student_id", PyVal.str "id1")]]) :=
  ⟨((delete_student_removes_all_matches jsonStorage "id1"
      (.rows [[("student_id", PyVal.str "id1")],
        [("student_id", PyVal.str "id2")]])).1 (by decide)).1,
   (delete_student_removes_all_matches jsonStorage "zz"
      (.rows [[("student_id", PyVal.str "id1")]])).2 (by decide)⟩

/-- C7: `Storage.load` never signals an error: for the JSON format a
missing file, malformed text, or a root that is not a list loads as the
empty collection, and a list root loads as its records in order; for the
XML format a missing file or a parse error loads as the empty collection,
and a document loads as its student elements parsed to records in order.
Totality of both load functions models the all-absorbing try/except of
the source. -/
theorem storage_load_total_on_all_file_states :
    jsonStorage.load .missing = [] ∧
    jsonStorage.load .malformed = [] ∧
    jsonStorage.load .notList = [] ∧
    (∀ rs : List PyDict, jsonStorage.load (.rows rs) = rs) ∧
    xmlStorage.load .missing = [] ∧
    xmlStorage.load .malformed = [] ∧
    (∀ root : XmlElem, xmlStorage.load (.doc root) =
      (root.children.filter (fun e => e.tag = "student")).map elemToDict) :=
  ⟨rfl, rfl, rfl, fun _ => rfl, rfl, rfl, fun _ => rfl⟩

theorem dictSet_eq_append (d : PyDict) (k : String) (v : PyVal)
    (h : dictHas d k = false) : dictSet d k v = d ++ [(k, v)] := by
  induction d with
  | nil => rfl
  | cons kv rest ih =>
      obtain ⟨k0, v0⟩ := kv
      by_cases h0 : k0 = k
      · exfalso
        simp [dictHas, dictGet?, h0] at h
      · simp only [dictSet, h0, if_false, List.cons_append]
        rw [ih (by simpa [dictHas, dictGet?, h0] using h)]

theorem dictHas_append (a b : PyDict) (k : String) :
    dictHas (a ++ b) k = (dictHas a k || dictHas b k) := by
  induction a with
  | nil => simp [dictHas, dictGet?]
  | cons kv rest ih =>
      obtain ⟨k0, v0⟩ := kv
      by_cases h0 : k0 = k
      · simp [dictHas, dictGet?, h0]
      · simp only [List.cons_append, dictHas, dictGet?, h0, if_false]
        simpa [dictHas] using ih

theorem xmlReadFields_append (r : PyDict) (acc : PyDict)
    (hnd : (r.map Prod.fst).Nodup)
    (hacc : ∀ kv ∈ r, dictHas acc kv.1 = false) :
    (r.map (fun kv => XmlElem.mk kv.1 (some (pyStr kv.2)) [])).foldl
      xmlReadField acc =
      acc ++ r.map (fun kv => (kv.1, xmlRoundVal kv.1 kv.2)) := by
  induction r generalizing acc with
  | nil => simp
  | cons kv rest ih =>
      obtain ⟨k, v⟩ := kv
      have hk : dictHas acc k = false := hacc (k, v) (by simp)
      have hstep : xmlReadField acc (XmlElem.mk k (some (pyStr v)) []) =
          acc ++ [(k, xmlRoundVal k v)] := by
        unfold xmlReadField xmlRoundVal
        by_cases hg : k = "gpa"
        · subst hg
          simp [XmlElem.tag, XmlElem.text, dictSet_eq_append _ _ _ hk]
        · simp [XmlElem.tag, XmlElem.text, hg, dictSet_eq_append _ _ _ hk]
      simp only [List.map_cons, List.foldl_cons, hstep]
      have hnd2 : (rest.map Prod.fst).Nodup := by
        simpa using hnd.of_cons
      have hknotin : k ∉ rest.map Prod.fst := by
        have := hnd
        simp only [List.map_cons, List.nodup_cons] at this
        exact this.1
      have hacc2 : ∀ kv2 ∈ rest,
          dictHas (acc ++ [(k, xmlRoundVal k v)]) kv2.1 = false := by
        intro kv2 hkv2
        rw [dictHas_append]
        have h1 : dictHas acc kv2.1 = false := hacc kv2 (by simp [hkv2])
        have h2 : dictHas [(k, xmlRoundVal k v)] kv2.1 = false := by
          have hne : k ≠ kv2.1 := by
            intro hh
            exact hknotin (hh ▸ List.mem_map_of_mem Prod.fst hkv2)
          simp [dictHas, dictGet?, hne]
        rw [h1, h2]
        rfl
      rw [ih (acc ++ [(k, xmlRoundVal k v)]) hnd2 hacc2]
      simp

theorem elemToDict_dictToElem (r : PyDict)
    (hnd : (r.map Prod.fst).Nodup) :
    elemToDict (dictToElem r) =
      r.map (fun kv => (kv.1, xmlRoundVal kv.1 kv.2)) := by
  show (r.map (fun kv => XmlElem.mk kv.1 (some (pyStr kv.2)) [])).foldl
      xmlReadField [] = _
  rw [xmlReadFields_append r [] hnd (by intro kv _; rfl)]
  rfl

/-- C8: a save followed by a load round-trips: in the JSON format every
record comes back exactly as saved; in the XML format each record (with
distinct keys, as every Python dict has) comes back with every field
turned into the str(...) text of the saved value, except gpa, which is
the float obtained by parsing that text, 0.0 when unparseable. -/
theorem save_load_roundtrip (rs : List PyDict) (stj : JsonFile)
    (stx : XmlFile) (hnd : ∀ r ∈ rs, (r.map Prod.fst).Nodup) :
    jsonStorage.load (jsonStorage.save rs stj) = rs ∧
    xmlStorage.load (xmlStorage.save rs stx) =
      rs.map (fun r => r.map (fun kv => (kv.1, xmlRoundVal kv.1 kv.2))) := by
  refine ⟨rfl, ?_⟩
  show ((XmlElem.mk "students" none (rs.map dictToElem)).children.filter
      (fun e => e.tag = "student")).map elemToDict = _
  have hfil : ((rs.map dictToElem).filter (fun e => e.tag = "student")) =
      rs.map dictToElem := by
    apply List.filter_eq_self.mpr
    intro e he
    obtain ⟨r, _, rfl⟩ := List.mem_map.mp he
    simp [dictToElem, XmlElem.tag]
  show ((rs.map dictToElem).filter (fun e => e.tag = "student")).map
      elemToDict = _
  rw [hfil, List.map_map]
  apply List.map_congr_left
  intro r hr
  exact elemToDict_dictToElem r (hnd r hr)

/-- Witness for C8: one record with a string field and gpa 3.5 saved to
the XML format comes back with the identifier as text and the gpa as the
same float re-parsed from its text 3.5. -/
theorem save_load_roundtrip_witness :
    xmlStorage.load (xmlStorage.save
      [[("student_id", PyVal.str "ab"), ("gpa", PyVal.num (mkRat 7 2))]]
      .missing) =
    [[("student_id", PyVal.str "ab"), ("gpa", PyVal.num (mkRat 7 2))]] :=
  (save_load_roundtrip
    [[("student_id", PyVal.str "ab"), ("gpa", PyVal.num (mkRat 7 2))]]
    .missing .missing (by decide)).2.trans (by decide)
